import Mathlib

/-!
Verification of the Discord bot in `Firstly.js` (single-file source).

The definitions below are a shallow embedding of the bot's pure core:
the tic-tac-toe evaluator and move handler, the poll creation and vote
handlers, the giveaway join/close logic, the duration parser, the HTTP
health-server callback, and the event-router error boundaries.
JavaScript arrays become Lean lists, JS `Map`/`Set` become association
lists / lists without duplicates, JS numbers become `Nat`/`Int`, and
`Math.random()` is modelled as a rational `r / den` with `r < den`.
Asynchronous platform calls (`interaction.reply`, ...) are modelled by an
`Except String Unit` parameter describing whether the call succeeded.
-/

namespace Firstly

/-! ## Tic-tac-toe (`tttWinner`, lines 308-319) -/

/-- A player mark: the JS strings `'X'` and `'O'`. -/
inductive Mark where
  | X
  | O
deriving DecidableEq, Repr, Fintype

/-- Result of evaluating a board: the JS returns `'X'`/`'O'`, `'TIE'` or `null`. -/
inductive TTTResult where
  | winner (m : Mark)
  | tie
  | inProgress
deriving DecidableEq, Repr

/-- A board is the JS `Array(9)` of `null | 'X' | 'O'`; cell `i` is `board[i]`. -/
abbrev Board := List (Option Mark)

/-- JS `board[i]`: out-of-range access yields `undefined`, which behaves like `null`. -/
def cellAt (b : Board) (i : Nat) : Option Mark :=
  b.getD i none

/-- The eight win lines of `tttWinner`. -/
def tttLines : List (Nat × Nat × Nat) :=
  [(0,1,2), (3,4,5), (6,7,8),
   (0,3,6), (1,4,7), (2,5,8),
   (0,4,8), (2,4,6)]

/-- One loop iteration: `board[a] && board[a] === board[b] && board[a] === board[c]`
(truthiness of `board[a]` plus strict equality with the other two cells). -/
def lineWin3 (b : Board) (a : Nat) (b2 : Nat) (c : Nat) : Option Mark :=
  if cellAt b a ≠ none ∧ cellAt b a = cellAt b b2 ∧ cellAt b a = cellAt b c
  then cellAt b a else none

/-- The `for (const [a,b,c] of lines)` loop: first winning line's mark, if any. -/
def findLineWin (b : Board) : List (Nat × Nat × Nat) → Option Mark
  | [] => none
  | (a, b2, c) :: rest =>
    match lineWin3 b a b2 c with
    | some m => some m
    | none => findLineWin b rest

/-- `tttWinner(board)` from the source: first winning line's mark, else
`'TIE'` when `board.every(Boolean)`, else `null`. -/
def tttWinner (b : Board) : TTTResult :=
  match findLineWin b tttLines with
  | some m => TTTResult.winner m
  | none => if b.all Option.isSome then TTTResult.tie else TTTResult.inProgress

/-- Spec-side predicate: line `l` is fully occupied by the identical mark `m`. -/
def lineFullOf (b : Board) (l : Nat × Nat × Nat) (m : Mark) : Prop :=
  cellAt b l.1 = some m ∧ cellAt b l.2.1 = some m ∧ cellAt b l.2.2 = some m

instance (b : Board) (l : Nat × Nat × Nat) (m : Mark) : Decidable (lineFullOf b l m) := by
  unfold lineFullOf; infer_instance

/-- Spec-side predicate: some one of the eight lines is fully occupied by
identical marks. -/
def someLineFull (b : Board) : Prop :=
  ∃ l ∈ tttLines, ∃ m : Mark, lineFullOf b l m

instance (b : Board) : Decidable (someLineFull b) := by
  unfold someLineFull; infer_instance

/-- Spec-side predicate: all nine cells are filled. -/
def boardFull (b : Board) : Prop :=
  ∀ c ∈ b, c.isSome

instance (b : Board) : Decidable (boardFull b) := by
  unfold boardFull; infer_instance

/-! ## Tic-tac-toe move handler (`collector.on('collect')`, lines 618-641) -/

/-- A tic-tac-toe session: `{players: [P1,P2], turn: 0/1, board: Array(9)}`. -/
structure TTTGame where
  players : List String
  turn : Nat
  board : Board
deriving DecidableEq, Repr

/-- The reply sent for a move: one of the three rejection messages
(`'Not your game.'`, `'Wait your turn.'`, `'Spot taken.'`) or the update. -/
inductive TTTReply where
  | notYourGame
  | waitTurn
  | spotTaken
  | moved (result : TTTResult)
deriving DecidableEq, Repr

/-- The body of the ttt `collector.on('collect')` handler: the three rejection
checks in source order, then mark placement, win evaluation, and turn advance
(`data.turn = 1 - data.turn` only when the game continues). -/
def tttMove (g : TTTGame) (user : String) (idx : Nat) : TTTGame × TTTReply :=
  if user ∉ g.players then (g, TTTReply.notYourGame)
  else if g.players.get? g.turn ≠ some user then (g, TTTReply.waitTurn)
  else if cellAt g.board idx ≠ none then (g, TTTReply.spotTaken)
  else
    let mark : Mark := if g.turn = 0 then Mark.X else Mark.O
    let board2 := g.board.set idx (some mark)
    let win := tttWinner board2
    let turn2 :=
      match win with
      | TTTResult.inProgress => 1 - g.turn
      | _ => g.turn
    ({ players := g.players, turn := turn2, board := board2 }, TTTReply.moved win)

/-! ## Duration parser (`parseDuration`, lines 66-80) -/

/-- The unit letters of the regex `(\d+)\s*(d|h|m|s)` with the `i` flag:
`match[2].toLowerCase()` is compared against the four units. -/
def isUnitChar (c : Char) : Bool :=
  c.toLower = 'd' || c.toLower = 'h' || c.toLower = 'm' || c.toLower = 's'

/-- Milliseconds contributed per unit value: `d`, `h`, `m`, `s` multipliers. -/
def unitMs (c : Char) : Option Nat :=
  if c.toLower = 'd' then some 86400000
  else if c.toLower = 'h' then some 3600000
  else if c.toLower = 'm' then some 60000
  else if c.toLower = 's' then some 1000
  else none

/-- Reads a maximal digit run (the greedy `\d+`), accumulating the decimal
value like `parseInt(match[1], 10)`, and returns the rest of the input. -/
def takeDigits (acc : Nat) : List Char → Nat × List Char
  | [] => (acc, [])
  | c :: cs =>
    if c.isDigit then takeDigits (acc * 10 + (c.toNat - 48)) cs else (acc, c :: cs)

/-- The greedy `\s*` between the digits and the unit letter. -/
def skipWs (l : List Char) : List Char :=
  l.dropWhile Char.isWhitespace

/-- The `while ((match = regex.exec(str)) !== null)` loop: scan left to right
for matches of `(\d+)\s*(d|h|m|s)` and sum their millisecond contributions.
`fuel` bounds the recursion; each step consumes at least one character, so
`fuel = length` is exact. -/
def scanMsAux : Nat → List Char → Nat
  | 0, _ => 0
  | _ + 1, [] => 0
  | fuel + 1, c :: cs =>
    if c.isDigit then
      match skipWs (takeDigits 0 (c :: cs)).2 with
      | [] => 0
      | u :: rest2 =>
        match unitMs u with
        | some k => (takeDigits 0 (c :: cs)).1 * k + scanMsAux fuel rest2
        | none => scanMsAux fuel (takeDigits 0 (c :: cs)).2
    else scanMsAux fuel cs

/-- Total milliseconds matched in the string. -/
def scanMs (l : List Char) : Nat :=
  scanMsAux l.length l

/-- `parseDuration(str)`: `null` for a falsy string, else the summed
milliseconds, with `return ms > 0 ? ms : null`. -/
def parseDuration (s : String) : Option Nat :=
  if s = "" then none
  else if scanMs s.toList > 0 then some (scanMs s.toList) else none

/-- Spec-side: after at least one digit and then `\s*`, the next character is
a unit letter. -/
def wsThenUnit : List Char → Bool
  | [] => false
  | c :: cs => if c.isWhitespace then wsThenUnit cs else isUnitChar c

/-- Spec-side: the rest of a token after its first digit: optional further
digits, then optional whitespace, then a unit letter. -/
def digitsThenUnit : List Char → Bool
  | [] => false
  | c :: cs => if c.isDigit then digitsThenUnit cs else wsThenUnit (c :: cs)

/-- Spec-side: the string contains a recognized unit token, i.e. somewhere a
digit run followed (after optional whitespace) by `d`, `h`, `m` or `s`. -/
def hasToken : List Char → Bool
  | [] => false
  | c :: cs => (c.isDigit && digitsThenUnit cs) || hasToken cs

/-- Spec-side: the sequence of recognized unit tokens of the string, as
(decimal value, unit letter) pairs, in the left-to-right order the regex
loop finds its matches. -/
def tokensAux : Nat → List Char → List (Nat × Char)
  | 0, _ => []
  | _ + 1, [] => []
  | fuel + 1, c :: cs =>
    if c.isDigit then
      match skipWs (takeDigits 0 (c :: cs)).2 with
      | [] => []
      | u :: rest2 =>
        match unitMs u with
        | some _ => ((takeDigits 0 (c :: cs)).1, u) :: tokensAux fuel rest2
        | none => tokensAux fuel (takeDigits 0 (c :: cs)).2
    else tokensAux fuel cs

/-- The recognized unit tokens of a whole string. -/
def tokensOf (l : List Char) : List (Nat × Char) :=
  tokensAux l.length l

/-- The millisecond contribution of one token: its value times its unit's
multiplier (`val * 24*60*60*1000` for `d`, and so on). -/
def contribution (t : Nat × Char) : Nat :=
  t.1 * (unitMs t.2).getD 0

/-! ## Polls (creation, lines 535-568; vote button handler, lines 343-388) -/

/-- One poll option: `{label, count}`. The count is a JS number, so `Int`. -/
structure PollOption where
  label : List Char
  count : Int
deriving DecidableEq, Repr

/-- A poll record: `{question, multiple, options, voters, multiVoters}`.
`voters` is the `Map(userId -> index)` as an association list in insertion
order; `multiVoters` holds the `Set` of `userId:index` keys as pairs. -/
structure Poll where
  question : List Char
  multiple : Bool
  options : List PollOption
  voters : List (String × Nat)
  multiVoters : List (String × Nat)
deriving DecidableEq, Repr

/-- JS `raw.split(';')`. -/
def splitSemi : List Char → List (List Char)
  | [] => [[]]
  | c :: cs =>
    if c = ';' then [] :: splitSemi cs
    else
      match splitSemi cs with
      | [] => [[c]]
      | g :: gs => (c :: g) :: gs

/-- JS `String.prototype.trim`. -/
def trimChars (l : List Char) : List Char :=
  ((l.dropWhile Char.isWhitespace).reverse.dropWhile Char.isWhitespace).reverse

/-- `raw.split(';').map(s => s.trim()).filter(Boolean).slice(0, 5)`. -/
def parseOptions (raw : List Char) : List (List Char) :=
  (((splitSemi raw).map trimChars).filter (fun o => !o.isEmpty)).take 5

/-- The `/poll` command handler's record construction: `null` models the
early `'Provide at least 2 options.'` rejection. -/
def mkPoll (question raw : List Char) (multiple : Bool) : Option Poll :=
  if (parseOptions raw).length < 2 then none
  else some
    { question := question
      multiple := multiple
      options := (parseOptions raw).map (fun o => { label := o, count := 0 })
      voters := []
      multiVoters := [] }

/-- `poll.voters.get(userId)` on the association list. -/
def lookupVoter : List (String × Nat) → String → Option Nat
  | [], _ => none
  | (k, v) :: r, u => if k = u then some v else lookupVoter r u

/-- `poll.voters.set(userId, idx)`: replace in place, or append a new entry. -/
def setVoter : List (String × Nat) → String → Nat → List (String × Nat)
  | [], u, i => [(u, i)]
  | (k, v) :: r, u, i => if k = u then (u, i) :: r else (k, v) :: setVoter r u i

/-- `poll.options[i].count += d` (JS `count++` / `count--`). -/
def bumpCount : Nat → Int → List PollOption → List PollOption
  | _, _, [] => []
  | 0, d, o :: os => { o with count := o.count + d } :: os
  | j + 1, d, o :: os => o :: bumpCount j d os

/-- The poll button handler (lines 343-370): single-vote branch replaces the
voter's previous choice (decrement old, increment new), no-ops when the same
option is clicked again; multi-vote branch toggles the `userId:idx` key. -/
def pollVote (p : Poll) (user : String) (idx : Nat) : Poll :=
  if p.multiple = false then
    match lookupVoter p.voters user with
    | some prev =>
      if prev = idx then p
      else
        { p with
          options := bumpCount idx 1 (bumpCount prev (-1) p.options)
          voters := setVoter p.voters user idx }
    | none =>
      { p with
        options := bumpCount idx 1 p.options
        voters := setVoter p.voters user idx }
  else
    if (user, idx) ∈ p.multiVoters then
      { p with
        options := bumpCount idx (-1) p.options
        multiVoters := p.multiVoters.erase (user, idx) }
    else
      { p with
        options := bumpCount idx 1 p.options
        multiVoters := p.multiVoters ++ [(user, idx)] }

/-- A sequence of vote-button events applied in order. -/
def pollVotes (p : Poll) (events : List (String × Nat)) : Poll :=
  events.foldl (fun q e => pollVote q e.1 e.2) p

/-- `Total votes` as displayed in the embed footer:
`poll.options.reduce((a,b) => a + b.count, 0)`. -/
def sumCounts (p : Poll) : Int :=
  (p.options.map PollOption.count).sum

/-- The invariant maintained by single-vote polls: displayed total equals the
number of recorded voters, every recorded choice indexes a real option, and
the voter map has no duplicate keys. -/
@[reducible] def PollInv (p : Poll) : Prop :=
  sumCounts p = (p.voters.length : Int) ∧
  (∀ pr ∈ p.voters, pr.2 < p.options.length) ∧
  (p.voters.map Prod.fst).Nodup

/-- Concrete poll of the end-to-end scenario, as built by
`/poll question:"Best color?" options:"Red;Blue;Green"`. -/
def pollC6_0 : Poll :=
  { question := "Best color?".toList
    multiple := false
    options := [{ label := "Red".toList, count := 0 },
                { label := "Blue".toList, count := 0 },
                { label := "Green".toList, count := 0 }]
    voters := []
    multiVoters := [] }

/-- The scenario poll after user `U` votes for option index 1. -/
def pollC6_1 : Poll := pollVote pollC6_0 "U" 1

/-- The scenario poll after user `U` then votes for option index 2. -/
def pollC6_2 : Poll := pollVote pollC6_1 "U" 2

/-- A small two-option single-vote poll used as a concrete instance. -/
def pollW3 : Poll :=
  { question := "q".toList
    multiple := false
    options := [{ label := "a".toList, count := 0 },
                { label := "b".toList, count := 0 }]
    voters := []
    multiVoters := [] }

/-! ## Giveaways (lines 667-706 and 821-831) -/

/-- A giveaway session: `{prize, endsAt, entrants: Set}` (message refs omitted). -/
structure GiveawayRec where
  prize : String
  endsAt : Nat
  entrants : List String
deriving DecidableEq, Repr

/-- `data.entrants.add(userId)`: JS `Set.add` keeps insertion order and is a
no-op on a present element. -/
def addEntrant (l : List String) (u : String) : List String :=
  if u ∈ l then l else l ++ [u]

/-- The giveaway join handlers (`collector.on('collect')` line 689 and the
global listener line 828) both just add the user to the entrant set. -/
def joinGiveaway (g : GiveawayRec) (u : String) : GiveawayRec :=
  { g with entrants := addEntrant g.entrants u }

/-- `choice(arr)` (lines 101-103): `arr[Math.floor(Math.random() * arr.length)]`
with `Math.random()` modelled as `r / den`, `r < den`. -/
def choice (arr : List String) (r den : Nat) : Option String :=
  arr.get? (r * arr.length / den)

/-- The `collector.on('end')` winner draw (lines 692-694):
`entrants.length ? choice(entrants) : null`. -/
def giveawayClose (entrants : List String) (r den : Nat) : Option String :=
  if entrants.length ≠ 0 then choice entrants r den else none

/-! ## HTTP health server (`http.createServer` callback, lines 975-1020) -/

/-- The process state the callback reads (`process.uptime()`,
`process.memoryUsage().rss`, `process.version`, `client.isReady()`,
`client.guilds.cache.size`, `Date.now()`). -/
structure ProcStat where
  uptimeSeconds : Nat
  memRss : Nat
  nodeVersion : String
  botReady : Bool
  guildsCached : Nat
  now : Nat
deriving DecidableEq, Repr

/-- The `/status` JSON payload object. -/
structure StatusPayload where
  status : String
  uptime_seconds : Nat
  node_version : String
  mem_rss : Nat
  bot_ready : Bool
  guilds_cached : Nat
  timestamp : Nat
deriving DecidableEq, Repr

/-- One line of the `/metrics` exposition: a `#`-comment or a gauge sample. -/
inductive MetricLine where
  | comment (text : String)
  | gauge (name : String) (value : Nat)
deriving DecidableEq, Repr

/-- The nine `lines.push(...)` of the `/metrics` branch, in order. -/
def metricsLines (st : ProcStat) : List MetricLine :=
  [MetricLine.comment "# HELP process_uptime_seconds Process uptime in seconds",
   MetricLine.comment "# TYPE process_uptime_seconds gauge",
   MetricLine.gauge "process_uptime_seconds" st.uptimeSeconds,
   MetricLine.comment "# HELP process_memory_rss_bytes RSS memory in bytes",
   MetricLine.comment "# TYPE process_memory_rss_bytes gauge",
   MetricLine.gauge "process_memory_rss_bytes" st.memRss,
   MetricLine.comment "# HELP discord_guilds_cached Number of guilds cached by the bot",
   MetricLine.comment "# TYPE discord_guilds_cached gauge",
   MetricLine.gauge "discord_guilds_cached" st.guildsCached]

/-- Extracts the gauge sample carried by a metrics line, if any. -/
def gaugeOf : MetricLine → Option (String × Nat)
  | MetricLine.comment _ => none
  | MetricLine.gauge n v => some (n, v)

/-- A response body: plaintext, the JSON status payload, or the metrics text
(kept line-structured; `lines.join('\n')` only flattens it). -/
inductive HttpBody where
  | plain (text : String)
  | json (payload : StatusPayload)
  | metrics (ls : List MetricLine)
deriving DecidableEq, Repr

/-- `res.writeHead(status, {'Content-Type': ...}); res.end(body)`. -/
structure HttpResponse where
  status : Nat
  contentType : String
  body : HttpBody
deriving DecidableEq, Repr

/-- The `try` body of the server callback: route on method and url. -/
def handleRequest (st : ProcStat) (method url : String) : HttpResponse :=
  if method = "GET" ∧ (url = "/" ∨ url = "/health") then
    { status := 200, contentType := "text/plain", body := HttpBody.plain "OK" }
  else if method = "GET" ∧ url = "/status" then
    { status := 200
      contentType := "application/json"
      body := HttpBody.json
        { status := "ok"
          uptime_seconds := st.uptimeSeconds
          node_version := st.nodeVersion
          mem_rss := st.memRss
          bot_ready := st.botReady
          guilds_cached := st.guildsCached
          timestamp := st.now } }
  else if method = "GET" ∧ url = "/metrics" then
    { status := 200
      contentType := "text/plain; version=0.0.4"
      body := HttpBody.metrics (metricsLines st) }
  else
    { status := 404, contentType := "text/plain", body := HttpBody.plain "Not Found" }

/-- The whole callback with its `catch`: a raised internal error yields the
500 plaintext response. -/
def httpCallback (st : ProcStat) (method url : String) (raiseErr : Bool) : HttpResponse :=
  if raiseErr then
    { status := 500, contentType := "text/plain", body := HttpBody.plain "Internal Server Error" }
  else handleRequest st method url

/-! ## Router error boundaries (lines 810-817, 821-831, 954-957) -/

/-- What the platform observes after an event was processed. -/
inductive RouterOutcome where
  | completed
  | apologized (msg : String)
  | loggedOnly (err : String)
deriving DecidableEq, Repr

/-- The `InteractionCreate` router (lines 322-818): the whole handler body is
wrapped in `try`; on error it logs and best-effort replies
`'An error occurred.'`, swallowing a failure of that reply too. -/
def interactionRouterBoundary (handlerResult : Except String Unit)
    (apologyDelivery : Except String Unit) : Except String RouterOutcome :=
  match handlerResult with
  | Except.ok _ => Except.ok RouterOutcome.completed
  | Except.error e =>
    match apologyDelivery with
    | Except.ok _ => Except.ok (RouterOutcome.apologized "An error occurred.")
    | Except.error _ => Except.ok (RouterOutcome.loggedOnly e)

/-- The `MessageCreate` text-command router (lines 835-958): same shape, with
`message.reply('An error occurred.').catch(() => {})` in the catch. -/
def messageRouterBoundary (handlerResult : Except String Unit)
    (apologyDelivery : Except String Unit) : Except String RouterOutcome :=
  match handlerResult with
  | Except.ok _ => Except.ok RouterOutcome.completed
  | Except.error e =>
    match apologyDelivery with
    | Except.ok _ => Except.ok (RouterOutcome.apologized "An error occurred.")
    | Except.error _ => Except.ok (RouterOutcome.loggedOnly e)

/-- `store.giveaways.get(gwId)`. -/
def lookupGiveaway : List (String × GiveawayRec) → String → Option GiveawayRec
  | [], _ => none
  | (k, g) :: r, i => if k = i then some g else lookupGiveaway r i

/-- `store.giveaways.set(gwId, data)` (in-place mutation of the record). -/
def setGiveaway : List (String × GiveawayRec) → String → GiveawayRec →
    List (String × GiveawayRec)
  | [], i, g => [(i, g)]
  | (k, g0) :: r, i, g => if k = i then (i, g) :: r else (k, g0) :: setGiveaway r i g

/-- The second `InteractionCreate` listener (lines 821-831), which handles
`gaw_join:` buttons with NO try/catch: the entrant mutation happens first,
then the reply; a failed reply's error leaves the listener uncaught. -/
def giveawayJoinListener (gs : List (String × GiveawayRec)) (gwId user : String)
    (replyDelivery : Except String Unit) :
    List (String × GiveawayRec) × Except String Unit :=
  match lookupGiveaway gs gwId with
  | none => (gs, replyDelivery)
  | some g => (setGiveaway gs gwId (joinGiveaway g user), replyDelivery)

end Firstly

namespace Firstly

/-! ## Helper lemmas: tic-tac-toe -/

theorem lineWin3_eq_some (b : Board) (a b2 c : Nat) (m : Mark) :
    lineWin3 b a b2 c = some m ↔ lineFullOf b (a, b2, c) m := by
  unfold lineWin3 lineFullOf
  split_ifs with hcond
  · obtain ⟨hne, hab, hac⟩ := hcond
    constructor
    · intro he
      exact ⟨he, hab ▸ he, hac ▸ he⟩
    · intro ⟨h1, _, _⟩
      exact h1
  · constructor
    · intro he; simp at he
    · intro ⟨h1, h2, h3⟩
      refine absurd ⟨?_, ?_, ?_⟩ hcond
      · rw [h1]; exact Option.noConfusion
      · rw [h1, h2]
      · rw [h1, h3]

theorem findLineWin_cons_some {b : Board} {a b2 c : Nat} {m : Mark}
    (tl : List (Nat × Nat × Nat)) (h : lineWin3 b a b2 c = some m) :
    findLineWin b ((a, b2, c) :: tl) = some m := by
  show (match lineWin3 b a b2 c with
    | some m => some m
    | none => findLineWin b tl) = some m
  rw [h]

theorem findLineWin_cons_none {b : Board} {a b2 c : Nat}
    (tl : List (Nat × Nat × Nat)) (h : lineWin3 b a b2 c = none) :
    findLineWin b ((a, b2, c) :: tl) = findLineWin b tl := by
  show (match lineWin3 b a b2 c with
    | some m => some m
    | none => findLineWin b tl) = findLineWin b tl
  rw [h]

theorem findLineWin_sound {b : Board} {ls : List (Nat × Nat × Nat)} {m : Mark}
    (h : findLineWin b ls = some m) : ∃ l ∈ ls, lineFullOf b l m := by
  induction ls with
  | nil => exact Option.noConfusion h
  | cons hd tl ih =>
    obtain ⟨a, b2, c⟩ := hd
    cases hw : lineWin3 b a b2 c with
    | some m0 =>
      rw [findLineWin_cons_some tl hw] at h
      have hm : m0 = m := Option.some.inj h
      subst hm
      exact ⟨(a, b2, c), by simp, (lineWin3_eq_some b a b2 c m0).mp hw⟩
    | none =>
      rw [findLineWin_cons_none tl hw] at h
      obtain ⟨l, hl, hf⟩ := ih h
      exact ⟨l, by simp [hl], hf⟩

theorem findLineWin_isSome {b : Board} {ls : List (Nat × Nat × Nat)}
    (h : ∃ l ∈ ls, ∃ m, lineFullOf b l m) : ∃ m, findLineWin b ls = some m := by
  induction ls with
  | nil => simp at h
  | cons hd tl ih =>
    obtain ⟨a, b2, c⟩ := hd
    cases hw : lineWin3 b a b2 c with
    | some m0 => exact ⟨m0, findLineWin_cons_some tl hw⟩
    | none =>
      rw [findLineWin_cons_none tl hw]
      apply ih
      obtain ⟨l, hl, m, hf⟩ := h
      rcases List.mem_cons.mp hl with h1 | h2
      · subst h1
        have hcontra := (lineWin3_eq_some b a b2 c m).mpr hf
        rw [hw] at hcontra
        exact Option.noConfusion hcontra
      · exact ⟨l, h2, m, hf⟩

theorem boardFull_iff_all (b : Board) : boardFull b ↔ b.all Option.isSome = true := by
  unfold boardFull
  rw [List.all_eq_true]

/-- The full classification of `tttWinner`, for an arbitrary board list. -/
theorem tttWinner_spec (b : Board) :
    ((∃ m, tttWinner b = TTTResult.winner m) ↔ someLineFull b) ∧
    (∀ m, tttWinner b = TTTResult.winner m → ∃ l ∈ tttLines, lineFullOf b l m) ∧
    (tttWinner b = TTTResult.tie ↔ (boardFull b ∧ ¬ someLineFull b)) ∧
    (tttWinner b = TTTResult.inProgress ↔ (¬ boardFull b ∧ ¬ someLineFull b)) := by
  cases hf : findLineWin b tttLines with
  | some m =>
    have hs := findLineWin_sound hf
    obtain ⟨l, hl, hfull⟩ := hs
    have hw : tttWinner b = TTTResult.winner m := by
      unfold tttWinner; rw [hf]
    refine ⟨?_, ?_, ?_, ?_⟩
    · exact ⟨fun _ => ⟨l, hl, m, hfull⟩, fun _ => ⟨m, hw⟩⟩
    · intro m' hm'
      rw [hw] at hm'
      have : m = m' := by cases hm'; rfl
      subst this
      exact ⟨l, hl, hfull⟩
    · constructor
      · intro ht; rw [hw] at ht; cases ht
      · rintro ⟨_, hns⟩; exact absurd ⟨l, hl, m, hfull⟩ hns
    · constructor
      · intro ht; rw [hw] at ht; cases ht
      · rintro ⟨_, hns⟩; exact absurd ⟨l, hl, m, hfull⟩ hns
  | none =>
    have hns : ¬ someLineFull b := by
      intro hs
      obtain ⟨m, hm⟩ := findLineWin_isSome hs
      rw [hf] at hm
      cases hm
    by_cases hall : b.all Option.isSome = true
    · have ht : tttWinner b = TTTResult.tie := by
        unfold tttWinner; rw [hf]; simp [hall]
      refine ⟨?_, ?_, ?_, ?_⟩
      · constructor
        · rintro ⟨m, hm⟩; rw [ht] at hm; cases hm
        · intro hs; exact absurd hs hns
      · intro m hm; rw [ht] at hm; cases hm
      · exact ⟨fun _ => ⟨(boardFull_iff_all b).mpr hall, hns⟩, fun _ => ht⟩
      · constructor
        · intro hp; rw [ht] at hp; cases hp
        · rintro ⟨hnf, _⟩; exact absurd ((boardFull_iff_all b).mpr hall) hnf
    · have ht : tttWinner b = TTTResult.inProgress := by
        unfold tttWinner; rw [hf]; simp [hall]
      refine ⟨?_, ?_, ?_, ?_⟩
      · constructor
        · rintro ⟨m, hm⟩; rw [ht] at hm; cases hm
        · intro hs; exact absurd hs hns
      · intro m hm; rw [ht] at hm; cases hm
      · constructor
        · intro hp; rw [ht] at hp; cases hp
        · rintro ⟨hbf, _⟩; exact absurd ((boardFull_iff_all b).mp hbf) hall
      · exact ⟨fun _ => ⟨fun hbf => absurd ((boardFull_iff_all b).mp hbf) hall, hns⟩,
          fun _ => ht⟩

/-! ## Helper lemmas: duration parser -/

theorem takeDigits_snd (l : List Char) :
    ∀ acc, (takeDigits acc l).2 = l.dropWhile Char.isDigit := by
  induction l with
  | nil => intro acc; rfl
  | cons c cs ih =>
    intro acc
    by_cases hc : c.isDigit
    · simp [takeDigits, hc, List.dropWhile_cons, ih]
    · simp [takeDigits, hc, List.dropWhile_cons]

theorem wsThenUnit_eq_dropWhile (l : List Char) :
    wsThenUnit l =
      (match l.dropWhile Char.isWhitespace with
       | [] => false
       | u :: _ => isUnitChar u) := by
  induction l with
  | nil => rfl
  | cons c cs ih =>
    by_cases hc : c.isWhitespace
    · simp only [wsThenUnit, hc, if_true, List.dropWhile_cons, ih]
    · simp only [wsThenUnit, hc, if_false, List.dropWhile_cons, Bool.false_eq_true]

theorem digitsThenUnit_eq_dropWhile (l : List Char) :
    digitsThenUnit l = wsThenUnit (l.dropWhile Char.isDigit) := by
  induction l with
  | nil => rfl
  | cons c cs ih =>
    by_cases hc : c.isDigit
    · simp only [digitsThenUnit, hc, if_true, List.dropWhile_cons, ih]
    · simp only [digitsThenUnit, hc, if_false, List.dropWhile_cons, Bool.false_eq_true]

theorem hasToken_dropWhile (p : Char → Bool) (l : List Char)
    (h : hasToken l = false) : hasToken (l.dropWhile p) = false := by
  induction l with
  | nil => exact h
  | cons c cs ih =>
    have h2 : hasToken cs = false := by
      simp only [hasToken, Bool.or_eq_false_iff] at h
      exact h.2
    by_cases hp : p c
    · simp only [List.dropWhile_cons, hp, if_true]
      exact ih h2
    · simp only [List.dropWhile_cons, hp, if_false, Bool.false_eq_true]
      exact h

theorem unitMs_eq_none (c : Char) (h : isUnitChar c = false) : unitMs c = none := by
  simp only [isUnitChar, Bool.or_eq_false_iff, decide_eq_false_iff_not] at h
  obtain ⟨⟨⟨hd, hh⟩, hm⟩, hs⟩ := h
  simp [unitMs, hd, hh, hm, hs]

theorem scanMsAux_succ_cons (fuel : Nat) (c : Char) (cs : List Char) :
    scanMsAux (fuel + 1) (c :: cs) =
      if c.isDigit then
        match skipWs (takeDigits 0 (c :: cs)).2 with
        | [] => 0
        | u :: rest2 =>
          match unitMs u with
          | some k => (takeDigits 0 (c :: cs)).1 * k + scanMsAux fuel rest2
          | none => scanMsAux fuel (takeDigits 0 (c :: cs)).2
      else scanMsAux fuel cs := rfl

theorem scanMsAux_eq_zero :
    ∀ (fuel : Nat) (l : List Char), hasToken l = false → scanMsAux fuel l = 0 := by
  intro fuel
  induction fuel with
  | zero => intro l _; rfl
  | succ fuel ih =>
    intro l h
    match l with
    | [] => rfl
    | c :: cs =>
      have hparts : (c.isDigit && digitsThenUnit cs) = false ∧ hasToken cs = false := by
        simpa only [hasToken, Bool.or_eq_false_iff] using h
      rw [scanMsAux_succ_cons]
      by_cases hc : c.isDigit
      · rw [if_pos hc]
        have hd : digitsThenUnit cs = false := by
          rcases Bool.and_eq_false_iff.mp hparts.1 with h1 | h1
          · exact absurd h1 (by simp [hc])
          · exact h1
        have hp2 : (takeDigits 0 (c :: cs)).2 = cs.dropWhile Char.isDigit := by
          rw [takeDigits_snd]
          simp [List.dropWhile_cons, hc]
        have hwu : wsThenUnit (cs.dropWhile Char.isDigit) = false := by
          rw [← digitsThenUnit_eq_dropWhile]
          exact hd
        cases hsw : skipWs (takeDigits 0 (c :: cs)).2 with
        | nil => rfl
        | cons u rest2 =>
          have hdw : (cs.dropWhile Char.isDigit).dropWhile Char.isWhitespace = u :: rest2 := by
            rw [← hp2]
            exact hsw
          have hu : isUnitChar u = false := by
            rw [wsThenUnit_eq_dropWhile, hdw] at hwu
            exact hwu
          show (match unitMs u with
            | some k => (takeDigits 0 (c :: cs)).1 * k + scanMsAux fuel rest2
            | none => scanMsAux fuel (takeDigits 0 (c :: cs)).2) = 0
          rw [unitMs_eq_none u hu]
          show scanMsAux fuel (takeDigits 0 (c :: cs)).2 = 0
          rw [hp2]
          exact ih _ (hasToken_dropWhile _ _ hparts.2)
      · rw [if_neg hc]
        exact ih _ hparts.2

theorem tokensAux_succ_cons (fuel : Nat) (c : Char) (cs : List Char) :
    tokensAux (fuel + 1) (c :: cs) =
      if c.isDigit then
        match skipWs (takeDigits 0 (c :: cs)).2 with
        | [] => []
        | u :: rest2 =>
          match unitMs u with
          | some _ => ((takeDigits 0 (c :: cs)).1, u) :: tokensAux fuel rest2
          | none => tokensAux fuel (takeDigits 0 (c :: cs)).2
      else tokensAux fuel cs := rfl

theorem scanMsAux_eq_tokens_sum :
    ∀ (fuel : Nat) (l : List Char),
      scanMsAux fuel l = ((tokensAux fuel l).map contribution).sum := by
  intro fuel
  induction fuel with
  | zero => intro l; rfl
  | succ fuel ih =>
    intro l
    match l with
    | [] => rfl
    | c :: cs =>
      rw [scanMsAux_succ_cons, tokensAux_succ_cons]
      by_cases hc : c.isDigit
      · rw [if_pos hc, if_pos hc]
        cases hsw : skipWs (takeDigits 0 (c :: cs)).2 with
        | nil => rfl
        | cons u rest2 =>
          show (match unitMs u with
              | some k => (takeDigits 0 (c :: cs)).1 * k + scanMsAux fuel rest2
              | none => scanMsAux fuel (takeDigits 0 (c :: cs)).2) =
            ((match unitMs u with
              | some _ => ((takeDigits 0 (c :: cs)).1, u) :: tokensAux fuel rest2
              | none => tokensAux fuel (takeDigits 0 (c :: cs)).2).map contribution).sum
          cases hu : unitMs u with
          | some k =>
            show (takeDigits 0 (c :: cs)).1 * k + scanMsAux fuel rest2 =
              ((((takeDigits 0 (c :: cs)).1, u) :: tokensAux fuel rest2).map
                contribution).sum
            rw [List.map_cons, List.sum_cons, ih rest2]
            have hcon : contribution ((takeDigits 0 (c :: cs)).1, u)
                = (takeDigits 0 (c :: cs)).1 * k := by
              have h0 : contribution ((takeDigits 0 (c :: cs)).1, u)
                  = (takeDigits 0 (c :: cs)).1 * ((unitMs u).getD 0) := rfl
              rw [h0, hu]
              rfl
            rw [hcon]
          | none =>
            show scanMsAux fuel (takeDigits 0 (c :: cs)).2 =
              ((tokensAux fuel (takeDigits 0 (c :: cs)).2).map contribution).sum
            exact ih _
      · rw [if_neg hc, if_neg hc]
        exact ih cs

theorem scanMs_eq_tokens_sum (l : List Char) :
    scanMs l = ((tokensOf l).map contribution).sum :=
  scanMsAux_eq_tokens_sum l.length l

theorem tokens_sum_zero_of_values_zero (ts : List (Nat × Char))
    (h : ∀ t ∈ ts, t.1 = 0) : (ts.map contribution).sum = 0 := by
  apply List.sum_eq_zero
  intro x hx
  rw [List.mem_map] at hx
  obtain ⟨t, ht, rfl⟩ := hx
  have h1 : contribution t = t.1 * ((unitMs t.2).getD 0) := rfl
  rw [h1, h t ht]
  exact Nat.zero_mul _

end Firstly

/-- Claim C1: for every 9-cell board, `tttWinner` returns a player mark iff one
of the eight three-in-a-row lines is fully occupied by that identical mark (the
returned mark owns such a line); it returns the tie value iff all nine cells are
filled and no line is fully occupied by identical marks; otherwise it returns
the in-progress value. -/
theorem tttWinner_classifies :
    ∀ c0 c1 c2 c3 c4 c5 c6 c7 c8 : Option Firstly.Mark,
      ((∃ m, Firstly.tttWinner [c0,c1,c2,c3,c4,c5,c6,c7,c8] = Firstly.TTTResult.winner m) ↔
        Firstly.someLineFull [c0,c1,c2,c3,c4,c5,c6,c7,c8]) ∧
      (∀ m, Firstly.tttWinner [c0,c1,c2,c3,c4,c5,c6,c7,c8] = Firstly.TTTResult.winner m →
        ∃ l ∈ Firstly.tttLines, Firstly.lineFullOf [c0,c1,c2,c3,c4,c5,c6,c7,c8] l m) ∧
      (Firstly.tttWinner [c0,c1,c2,c3,c4,c5,c6,c7,c8] = Firstly.TTTResult.tie ↔
        (Firstly.boardFull [c0,c1,c2,c3,c4,c5,c6,c7,c8] ∧
          ¬ Firstly.someLineFull [c0,c1,c2,c3,c4,c5,c6,c7,c8])) ∧
      (Firstly.tttWinner [c0,c1,c2,c3,c4,c5,c6,c7,c8] = Firstly.TTTResult.inProgress ↔
        (¬ Firstly.boardFull [c0,c1,c2,c3,c4,c5,c6,c7,c8] ∧
          ¬ Firstly.someLineFull [c0,c1,c2,c3,c4,c5,c6,c7,c8])) :=
  fun c0 c1 c2 c3 c4 c5 c6 c7 c8 =>
    Firstly.tttWinner_spec [c0,c1,c2,c3,c4,c5,c6,c7,c8]

/-- Claim C2: the ttt move handler rejects a move by a non-participant, a move
by a participant whose turn is not current, and a move targeting an occupied
cell; in all three cases the game state (players, turn index, board) is
unchanged. -/
theorem tttMove_rejects_unchanged (g : Firstly.TTTGame) (user : String) (idx : Nat)
    (h : user ∉ g.players ∨
      (user ∈ g.players ∧ g.players.get? g.turn ≠ some user) ∨
      Firstly.cellAt g.board idx ≠ none) :
    (Firstly.tttMove g user idx).1 = g := by
  unfold Firstly.tttMove
  rcases h with ha | ⟨hb, hc⟩ | hd
  · rw [if_pos ha]
  · rw [if_neg (not_not_intro hb), if_pos hc]
  · by_cases h1 : user ∉ g.players
    · rw [if_pos h1]
    · rw [if_neg h1]
      by_cases h2 : g.players.get? g.turn ≠ some user
      · rw [if_pos h2]
      · rw [if_neg h2, if_pos hd]

/-- Witness for C2: a non-participant's move on a fresh game is rejected with
the state unchanged. -/
theorem tttMove_rejects_unchanged_witness :
    (Firstly.tttMove
      { players := ["p1", "p2"], turn := 0, board := List.replicate 9 none }
      "p3" 4).1 =
      { players := ["p1", "p2"], turn := 0, board := List.replicate 9 none } :=
  tttMove_rejects_unchanged
    { players := ["p1", "p2"], turn := 0, board := List.replicate 9 none }
    "p3" 4 (Or.inl (by decide))

/-- Claim C5: `parseDuration` maps `"1h30m"` to 5400000 ms and `"10m"` to
600000 ms, and maps any string containing no recognized unit token (digits,
optional whitespace, then `d`/`h`/`m`/`s`) to `null`. -/
theorem parseDuration_examples_and_no_token :
    Firstly.parseDuration "1h30m" = some 5400000 ∧
    Firstly.parseDuration "10m" = some 600000 ∧
    ∀ s : String, Firstly.hasToken s.toList = false → Firstly.parseDuration s = none := by
  refine ⟨by decide, by decide, ?_⟩
  intro s hs
  unfold Firstly.parseDuration
  by_cases he : s = ""
  · rw [if_pos he]
  · rw [if_neg he]
    have hz : Firstly.scanMs s.toList = 0 :=
      Firstly.scanMsAux_eq_zero s.toList.length s.toList hs
    rw [hz]
    rfl

/-- Witness for C5: the tokenless string `"hello"` parses to `null`. -/
theorem parseDuration_examples_and_no_token_witness :
    Firstly.hasToken "hello".toList = false ∧ Firstly.parseDuration "hello" = none :=
  ⟨by decide, parseDuration_examples_and_no_token.2.2 "hello" (by decide)⟩

/-- Claim C10: `parseDuration` always returns `null` or a strictly positive
millisecond count; every string whose recognized unit tokens all carry the
value 0 (such as `"0s"` and `"0m"`) parses to `null`; and every string whose
tokens contribute a positive total (several tokens, a repeated unit such as
`"10m10m"` included) parses to the sum of the contributions of all its
tokens. -/
theorem parseDuration_none_or_positive :
    (∀ s : String, Firstly.parseDuration s = none ∨
      ∃ n, Firstly.parseDuration s = some n ∧ 0 < n) ∧
    (∀ s : String, (∀ t ∈ Firstly.tokensOf s.toList, t.1 = 0) →
      Firstly.parseDuration s = none) ∧
    (∀ s : String,
      0 < ((Firstly.tokensOf s.toList).map Firstly.contribution).sum →
      Firstly.parseDuration s =
        some (((Firstly.tokensOf s.toList).map Firstly.contribution).sum)) ∧
    Firstly.tokensOf "0s".toList = [(0, 's')] ∧
    Firstly.parseDuration "0s" = none ∧
    Firstly.parseDuration "0m" = none ∧
    Firstly.tokensOf "10m10m".toList = [(10, 'm'), (10, 'm')] ∧
    Firstly.parseDuration "10m10m" = some 1200000 := by
  refine ⟨?_, ?_, ?_, by decide, by decide, by decide, by decide, by decide⟩
  · intro s
    unfold Firstly.parseDuration
    by_cases he : s = ""
    · left; rw [if_pos he]
    · rw [if_neg he]
      by_cases hm : Firstly.scanMs s.toList > 0
      · right
        exact ⟨Firstly.scanMs s.toList, by rw [if_pos hm], hm⟩
      · left; rw [if_neg hm]
  · intro s hz
    unfold Firstly.parseDuration
    by_cases he : s = ""
    · rw [if_pos he]
    · rw [if_neg he]
      have hsum : Firstly.scanMs s.toList = 0 := by
        rw [Firstly.scanMs_eq_tokens_sum]
        exact Firstly.tokens_sum_zero_of_values_zero _ hz
      rw [hsum]
      rfl
  · intro s hpos
    have hne : s ≠ "" := by
      intro he
      subst he
      exact absurd hpos (by decide)
    unfold Firstly.parseDuration
    rw [if_neg hne, Firstly.scanMs_eq_tokens_sum, if_pos hpos]

/-- Witness for C10: the all-zero two-token string `"0d0h"` parses to `null`,
and the repeated-unit string `"5s5s"` parses to the sum of its tokens'
contributions. -/
theorem parseDuration_none_or_positive_witness :
    Firstly.parseDuration "0d0h" = none ∧
    Firstly.parseDuration "5s5s" =
      some (((Firstly.tokensOf "5s5s".toList).map Firstly.contribution).sum) :=
  ⟨parseDuration_none_or_positive.2.1 "0d0h" (by decide),
   parseDuration_none_or_positive.2.2.1 "5s5s" (by decide)⟩

namespace Firstly

/-! ## Helper lemmas: polls -/

theorem bumpCount_length (i : Nat) (d : Int) (l : List PollOption) :
    (bumpCount i d l).length = l.length := by
  induction l generalizing i with
  | nil => cases i <;> rfl
  | cons o os ih =>
    cases i with
    | zero => rfl
    | succ j => simp [bumpCount, ih j]

theorem bumpCount_sum (i : Nat) (d : Int) (l : List PollOption) (h : i < l.length) :
    ((bumpCount i d l).map PollOption.count).sum = (l.map PollOption.count).sum + d := by
  induction l generalizing i with
  | nil => simp at h
  | cons o os ih =>
    cases i with
    | zero =>
      simp only [bumpCount, List.map_cons, List.sum_cons]
      omega
    | succ j =>
      have hj : j < os.length := Nat.lt_of_succ_lt_succ (by simpa using h)
      simp only [bumpCount, List.map_cons, List.sum_cons, ih j hj]
      omega

theorem lookupVoter_mem (vs : List (String × Nat)) (u : String) (j : Nat) :
    lookupVoter vs u = some j → (u, j) ∈ vs := by
  induction vs with
  | nil => intro h; exact Option.noConfusion h
  | cons kv r ih =>
    obtain ⟨k, v⟩ := kv
    intro h
    by_cases hk : k = u
    · subst hk
      have hv : some v = some j := by simpa [lookupVoter] using h
      obtain rfl := Option.some.inj hv
      exact List.mem_cons_self _ _
    · have h2 : lookupVoter r u = some j := by simpa [lookupVoter, hk] using h
      exact List.mem_cons_of_mem _ (ih h2)

theorem lookupVoter_none_not_mem (vs : List (String × Nat)) (u : String) :
    lookupVoter vs u = none → u ∉ vs.map Prod.fst := by
  induction vs with
  | nil => intro _; simp
  | cons kv r ih =>
    obtain ⟨k, v⟩ := kv
    intro h
    by_cases hk : k = u
    · subst hk; simp [lookupVoter] at h
    · have h2 : lookupVoter r u = none := by simpa [lookupVoter, hk] using h
      intro hmem
      rw [List.map_cons] at hmem
      rcases List.mem_cons.mp hmem with he | hr
      · exact hk he.symm
      · exact ih h2 hr

theorem setVoter_of_none (vs : List (String × Nat)) (u : String) (i : Nat) :
    lookupVoter vs u = none → setVoter vs u i = vs ++ [(u, i)] := by
  induction vs with
  | nil => intro _; rfl
  | cons kv r ih =>
    obtain ⟨k, v⟩ := kv
    intro h
    by_cases hk : k = u
    · subst hk; simp [lookupVoter] at h
    · have h2 : lookupVoter r u = none := by simpa [lookupVoter, hk] using h
      simp [setVoter, hk, ih h2]

theorem setVoter_map_fst_of_some (vs : List (String × Nat)) (u : String) (i j : Nat) :
    lookupVoter vs u = some j → (setVoter vs u i).map Prod.fst = vs.map Prod.fst := by
  induction vs with
  | nil => intro h; exact Option.noConfusion h
  | cons kv r ih =>
    obtain ⟨k, v⟩ := kv
    intro h
    by_cases hk : k = u
    · subst hk
      simp [setVoter]
    · have h2 : lookupVoter r u = some j := by simpa [lookupVoter, hk] using h
      simp [setVoter, hk, ih h2]

theorem setVoter_mem (vs : List (String × Nat)) (u : String) (i : Nat) :
    ∀ pr ∈ setVoter vs u i, pr = (u, i) ∨ pr ∈ vs := by
  induction vs with
  | nil =>
    intro pr hpr
    simp only [setVoter, List.mem_singleton] at hpr
    exact Or.inl hpr
  | cons kv r ih =>
    obtain ⟨k, v⟩ := kv
    intro pr hpr
    by_cases hk : k = u
    · subst hk
      simp only [setVoter, if_pos rfl] at hpr
      rcases List.mem_cons.mp hpr with he | hr
      · exact Or.inl he
      · exact Or.inr (List.mem_cons_of_mem _ hr)
    · simp only [setVoter, if_neg hk] at hpr
      rcases List.mem_cons.mp hpr with he | hr
      · exact Or.inr (he ▸ List.mem_cons_self _ _)
      · rcases ih pr hr with h1 | h2
        · exact Or.inl h1
        · exact Or.inr (List.mem_cons_of_mem _ h2)

theorem counts_of_fresh_options (l : List (List Char)) :
    ((l.map (fun o => PollOption.mk o 0)).map PollOption.count).sum = 0 := by
  induction l with
  | nil => rfl
  | cons o os ih =>
    rw [List.map_cons, List.map_cons, List.sum_cons, ih]
    simp

theorem pollVote_single_found_same (p : Poll) (u : String) (i prev : Nat)
    (hm : p.multiple = false) (hl : lookupVoter p.voters u = some prev)
    (hpi : prev = i) : pollVote p u i = p := by
  unfold pollVote
  rw [hm, hl]
  simp [hpi]

theorem pollVote_single_found_diff (p : Poll) (u : String) (i prev : Nat)
    (hm : p.multiple = false) (hl : lookupVoter p.voters u = some prev)
    (hpi : prev ≠ i) :
    pollVote p u i =
      { p with
        options := bumpCount i 1 (bumpCount prev (-1) p.options)
        voters := setVoter p.voters u i } := by
  unfold pollVote
  rw [hm, hl]
  simp [hpi]

theorem pollVote_single_new (p : Poll) (u : String) (i : Nat)
    (hm : p.multiple = false) (hl : lookupVoter p.voters u = none) :
    pollVote p u i =
      { p with
        options := bumpCount i 1 p.options
        voters := setVoter p.voters u i } := by
  unfold pollVote
  rw [hm, hl]
  simp

theorem pollVote_preserves (p : Poll) (u : String) (i : Nat)
    (hm : p.multiple = false) (hi : i < p.options.length) (h : PollInv p) :
    PollInv (pollVote p u i) ∧
    (pollVote p u i).options.length = p.options.length ∧
    (pollVote p u i).multiple = false := by
  obtain ⟨hsum, hvals, hnd⟩ := h
  cases hl : lookupVoter p.voters u with
  | some prev =>
    by_cases hpi : prev = i
    · rw [pollVote_single_found_same p u i prev hm hl hpi]
      exact ⟨⟨hsum, hvals, hnd⟩, rfl, hm⟩
    · rw [pollVote_single_found_diff p u i prev hm hl hpi]
      have hprev_mem : (u, prev) ∈ p.voters := lookupVoter_mem _ _ _ hl
      have hprev_lt : prev < p.options.length := hvals _ hprev_mem
      have hlen1 : (bumpCount prev (-1) p.options).length = p.options.length :=
        bumpCount_length _ _ _
      have hi2 : i < (bumpCount prev (-1) p.options).length := by
        rw [hlen1]; exact hi
      have hfst := setVoter_map_fst_of_some p.voters u i prev hl
      have hvlen : (setVoter p.voters u i).length = p.voters.length := by
        calc (setVoter p.voters u i).length
            = ((setVoter p.voters u i).map Prod.fst).length := (List.length_map _ _).symm
          _ = (p.voters.map Prod.fst).length := by rw [hfst]
          _ = p.voters.length := List.length_map _ _
      refine ⟨⟨?_, ?_, ?_⟩, ?_, hm⟩
      · show ((bumpCount i 1 (bumpCount prev (-1) p.options)).map PollOption.count).sum
          = ((setVoter p.voters u i).length : Int)
        have hsum2 : (p.options.map PollOption.count).sum = (p.voters.length : Int) := hsum
        rw [bumpCount_sum i 1 _ hi2, bumpCount_sum prev (-1) _ hprev_lt, hvlen]
        omega
      · intro pr hpr
        show pr.2 < (bumpCount i 1 (bumpCount prev (-1) p.options)).length
        rw [bumpCount_length, hlen1]
        rcases setVoter_mem p.voters u i pr hpr with he | hmem
        · rw [he]; exact hi
        · exact hvals pr hmem
      · show ((setVoter p.voters u i).map Prod.fst).Nodup
        rw [hfst]; exact hnd
      · show (bumpCount i 1 (bumpCount prev (-1) p.options)).length = p.options.length
        rw [bumpCount_length, hlen1]
  | none =>
    rw [pollVote_single_new p u i hm hl]
    have hnotin := lookupVoter_none_not_mem p.voters u hl
    have happ := setVoter_of_none p.voters u i hl
    refine ⟨⟨?_, ?_, ?_⟩, ?_, hm⟩
    · show ((bumpCount i 1 p.options).map PollOption.count).sum
        = ((setVoter p.voters u i).length : Int)
      have hsum2 : (p.options.map PollOption.count).sum = (p.voters.length : Int) := hsum
      rw [bumpCount_sum i 1 _ hi, happ, List.length_append]
      simp only [List.length_singleton]
      push_cast
      omega
    · intro pr hpr
      show pr.2 < (bumpCount i 1 p.options).length
      rw [bumpCount_length]
      rcases setVoter_mem p.voters u i pr hpr with he | hmem
      · rw [he]; exact hi
      · exact hvals pr hmem
    · show ((setVoter p.voters u i).map Prod.fst).Nodup
      rw [happ, List.map_append]
      refine List.Nodup.append hnd (List.nodup_singleton _) ?_
      intro a ha hb
      rw [List.map_singleton, List.mem_singleton] at hb
      subst hb
      exact hnotin ha
    · show (bumpCount i 1 p.options).length = p.options.length
      exact bumpCount_length _ _ _

theorem pollVotes_inv :
    ∀ (events : List (String × Nat)) (p : Poll), p.multiple = false → PollInv p →
      (∀ e ∈ events, e.2 < p.options.length) → PollInv (pollVotes p events) := by
  intro events
  induction events with
  | nil => intro p _ h _; exact h
  | cons e es ih =>
    intro p hm h hev
    obtain ⟨h1, h2, h3⟩ := pollVote_preserves p e.1 e.2 hm (hev e (List.mem_cons_self _ _)) h
    have hstep : pollVotes p (e :: es) = pollVotes (pollVote p e.1 e.2) es := rfl
    rw [hstep]
    exact ih (pollVote p e.1 e.2) h3 h1
      (fun e2 he2 => by rw [h2]; exact hev e2 (List.mem_cons_of_mem _ he2))

theorem mkPoll_inv (q raw : List Char) (mult : Bool) (p : Poll)
    (h : mkPoll q raw mult = some p) : p.multiple = mult ∧ PollInv p := by
  unfold mkPoll at h
  by_cases hlen : (parseOptions raw).length < 2
  · rw [if_pos hlen] at h
    exact Option.noConfusion h
  · rw [if_neg hlen] at h
    have hp := Option.some.inj h
    subst hp
    refine ⟨rfl, ?_, ?_, ?_⟩
    · show (((parseOptions raw).map (fun o => PollOption.mk o 0)).map PollOption.count).sum
        = ((0 : Nat) : Int)
      rw [counts_of_fresh_options]
      rfl
    · intro pr hpr
      exact absurd hpr (List.not_mem_nil pr)
    · exact List.nodup_nil

end Firstly

/-- Claim C3: for every poll created in single-vote mode and every sequence of
vote-button events, the sum of all option counts equals the number of distinct
voters in the voter mapping (whose keys stay duplicate-free, so no voter is
counted twice). -/
theorem singleVote_count_invariant (q raw : List Char) (p : Firstly.Poll)
    (hp : Firstly.mkPoll q raw false = some p)
    (events : List (String × Nat))
    (hev : ∀ e ∈ events, e.2 < p.options.length) :
    Firstly.sumCounts (Firstly.pollVotes p events) =
      ((Firstly.pollVotes p events).voters.length : Int) ∧
    ((Firstly.pollVotes p events).voters.map Prod.fst).Nodup := by
  obtain ⟨hm, hinv⟩ := Firstly.mkPoll_inv q raw false p hp
  obtain ⟨h1, _, h3⟩ := Firstly.pollVotes_inv events p hm hinv hev
  exact ⟨h1, h3⟩

/-- Witness for C3: a two-option poll with one vote keeps total = voters. -/
theorem singleVote_count_invariant_witness :
    Firstly.sumCounts (Firstly.pollVotes Firstly.pollW3 [("u", 1)]) =
      ((Firstly.pollVotes Firstly.pollW3 [("u", 1)]).voters.length : Int) ∧
    ((Firstly.pollVotes Firstly.pollW3 [("u", 1)]).voters.map Prod.fst).Nodup :=
  singleVote_count_invariant "q".toList "a;b".toList Firstly.pollW3 (by decide)
    [("u", 1)] (by decide)

/-- Claim C6: creating a poll with question `"Best color?"` and options
`"Red;Blue;Green"` yields three options at count 0; a vote by `U` for index 1
sets its count to 1 and records `U -> 1`; a second vote by `U` for index 2
moves the count (option 1 back to 0, option 2 to 1) and keeps the total at 1. -/
theorem poll_end_to_end :
    Firstly.mkPoll "Best color?".toList "Red;Blue;Green".toList false =
      some Firstly.pollC6_0 ∧
    Firstly.pollC6_0.options.map Firstly.PollOption.count = [0, 0, 0] ∧
    Firstly.pollC6_1.options.map Firstly.PollOption.count = [0, 1, 0] ∧
    Firstly.pollC6_1.voters = [("U", 1)] ∧
    Firstly.pollC6_2.options.map Firstly.PollOption.count = [0, 0, 1] ∧
    Firstly.pollC6_2.voters = [("U", 2)] ∧
    Firstly.sumCounts Firstly.pollC6_2 = 1 := by
  decide

/-- Claim C4: at giveaway close, an empty entrant set declares no winner, and a
non-empty entrant set declares a winner drawn from the entrant set. -/
theorem giveawayClose_winner_mem (entrants : List String) (r den : Nat)
    (h : r < den) :
    (entrants = [] → Firstly.giveawayClose entrants r den = none) ∧
    (entrants ≠ [] → ∃ w, Firstly.giveawayClose entrants r den = some w ∧
      w ∈ entrants) := by
  constructor
  · intro he
    subst he
    rfl
  · intro hne
    have hlen : 0 < entrants.length := List.length_pos.mpr hne
    have hden : 0 < den := lt_of_le_of_lt (Nat.zero_le r) h
    have hidx : r * entrants.length / den < entrants.length := by
      rw [Nat.div_lt_iff_lt_mul hden]
      calc r * entrants.length < den * entrants.length :=
            mul_lt_mul_of_pos_right h hlen
        _ = entrants.length * den := Nat.mul_comm _ _
    unfold Firstly.giveawayClose
    rw [if_pos (by simpa using hne)]
    unfold Firstly.choice
    rw [List.get?_eq_get hidx]
    exact ⟨_, rfl, List.get_mem _ _ _⟩

/-- Witness for C4: with two entrants and random draw 1/2, a winner is drawn
from the entrant set. -/
theorem giveawayClose_winner_mem_witness :
    ∃ w, Firstly.giveawayClose ["a", "b"] 1 2 = some w ∧ w ∈ ["a", "b"] :=
  (giveawayClose_winner_mem ["a", "b"] 1 2 (by decide)).2 (by decide)

/-- Claim C9: joining a giveaway is idempotent: a join by a user already in the
entrant set leaves the record unchanged, and any number of repeated joins by
the same user equals a single join. -/
theorem joinGiveaway_idempotent (g : Firstly.GiveawayRec) (u : String) :
    (u ∈ g.entrants → Firstly.joinGiveaway g u = g) ∧
    (∀ n : Nat, (fun x => Firstly.joinGiveaway x u)^[n + 1] g =
      Firstly.joinGiveaway g u) := by
  have hmem : ∀ x : Firstly.GiveawayRec, u ∈ (Firstly.joinGiveaway x u).entrants := by
    intro x
    unfold Firstly.joinGiveaway Firstly.addEntrant
    by_cases hx : u ∈ x.entrants
    · simp [hx]
    · simp [hx]
  have hid : ∀ x : Firstly.GiveawayRec, u ∈ x.entrants → Firstly.joinGiveaway x u = x := by
    intro x hx
    unfold Firstly.joinGiveaway Firstly.addEntrant
    rw [if_pos hx]
  refine ⟨hid g, ?_⟩
  intro n
  induction n with
  | zero => simp
  | succ n ih =>
    rw [Function.iterate_succ_apply', ih]
    exact hid _ (hmem g)

/-- Witness for C9: joining with a user already entered changes nothing. -/
theorem joinGiveaway_idempotent_witness :
    Firstly.joinGiveaway { prize := "p", endsAt := 0, entrants := ["u"] } "u" =
      { prize := "p", endsAt := 0, entrants := ["u"] } :=
  (joinGiveaway_idempotent { prize := "p", endsAt := 0, entrants := ["u"] } "u").1
    (by decide)

/-- Claim C7: the health server returns 200 `"OK"` for `GET /` and
`GET /health`; a 200 JSON status payload carrying uptime, memory, readiness and
server count for `GET /status`; a 200 metrics exposition whose gauge lines are
exactly uptime seconds, RSS bytes and cached server count for `GET /metrics`;
404 plaintext for every other method/path; and 500 plaintext when the handler
raises internally. -/
theorem healthServer_routes (st : Firstly.ProcStat) (method url : String) :
    Firstly.httpCallback st "GET" "/" false =
      { status := 200, contentType := "text/plain",
        body := Firstly.HttpBody.plain "OK" } ∧
    Firstly.httpCallback st "GET" "/health" false =
      { status := 200, contentType := "text/plain",
        body := Firstly.HttpBody.plain "OK" } ∧
    (∃ p : Firstly.StatusPayload,
      Firstly.httpCallback st "GET" "/status" false =
        { status := 200, contentType := "application/json",
          body := Firstly.HttpBody.json p } ∧
      p.uptime_seconds = st.uptimeSeconds ∧ p.mem_rss = st.memRss ∧
      p.bot_ready = st.botReady ∧ p.guilds_cached = st.guildsCached) ∧
    (Firstly.httpCallback st "GET" "/metrics" false =
      { status := 200, contentType := "text/plain; version=0.0.4",
        body := Firstly.HttpBody.metrics (Firstly.metricsLines st) } ∧
      (Firstly.metricsLines st).filterMap Firstly.gaugeOf =
        [("process_uptime_seconds", st.uptimeSeconds),
         ("process_memory_rss_bytes", st.memRss),
         ("discord_guilds_cached", st.guildsCached)]) ∧
    ((method ≠ "GET" ∨ (url ≠ "/" ∧ url ≠ "/health" ∧ url ≠ "/status" ∧
        url ≠ "/metrics")) →
      Firstly.httpCallback st method url false =
        { status := 404, contentType := "text/plain",
          body := Firstly.HttpBody.plain "Not Found" }) ∧
    Firstly.httpCallback st method url true =
      { status := 500, contentType := "text/plain",
        body := Firstly.HttpBody.plain "Internal Server Error" } := by
  refine ⟨rfl, rfl, ⟨_, rfl, rfl, rfl, rfl, rfl⟩, ⟨rfl, rfl⟩, ?_, rfl⟩
  intro h
  have hc1 : ¬ (method = "GET" ∧ (url = "/" ∨ url = "/health")) := by
    rcases h with hm | ⟨h1, h2, _, _⟩
    · rintro ⟨hq, -⟩; exact hm hq
    · rintro ⟨-, hu | hu⟩
      · exact h1 hu
      · exact h2 hu
  have hc2 : ¬ (method = "GET" ∧ url = "/status") := by
    rcases h with hm | ⟨_, _, h3, _⟩
    · rintro ⟨hq, -⟩; exact hm hq
    · rintro ⟨-, hu⟩; exact h3 hu
  have hc3 : ¬ (method = "GET" ∧ url = "/metrics") := by
    rcases h with hm | ⟨_, _, _, h4⟩
    · rintro ⟨hq, -⟩; exact hm hq
    · rintro ⟨-, hu⟩; exact h4 hu
  show Firstly.handleRequest st method url = _
  unfold Firstly.handleRequest
  rw [if_neg hc1, if_neg hc2, if_neg hc3]

/-- Witness for C7: a `POST /` request gets the 404 plaintext response. -/
theorem healthServer_routes_witness :
    Firstly.httpCallback
      { uptimeSeconds := 1, memRss := 2, nodeVersion := "v22", botReady := true,
        guildsCached := 3, now := 4 } "POST" "/" false =
      { status := 404, contentType := "text/plain",
        body := Firstly.HttpBody.plain "Not Found" } :=
  (healthServer_routes
    { uptimeSeconds := 1, memRss := 2, nodeVersion := "v22", botReady := true,
      guildsCached := 3, now := 4 } "POST" "/").2.2.2.2.1 (Or.inl (by decide))

/-- Counterexample for C8 as stated: the global giveaway-join listener
(lines 821-831) wraps nothing in try/catch, so a failed reply's exception
propagates back to the platform callback instead of becoming an
`'An error occurred.'` reply. -/
theorem giveawayListener_propagates_counterexample :
    (Firstly.giveawayJoinListener
      [("gaw_1", { prize := "Prize", endsAt := 1000, entrants := [] })]
      "gaw_1" "alice" (Except.error "reply failed")).2 =
      Except.error "reply failed" := rfl

/-- Amended claim C8: the `InteractionCreate` router's catch block and the
prefix-command `MessageCreate` router convert every handler exception into an
`'An error occurred.'` reply (or a logged, swallowed failure) and never
propagate it; the giveaway-join global listener, however, has no catch, so an
error in its reply delivery always propagates. -/
theorem routerBoundaries_catch (hr ad : Except String Unit) :
    (∃ o, Firstly.interactionRouterBoundary hr ad = Except.ok o) ∧
    (∀ e, hr = Except.error e →
      Firstly.interactionRouterBoundary hr ad =
        Except.ok (Firstly.RouterOutcome.apologized "An error occurred.") ∨
      ∃ e2, ad = Except.error e2 ∧
        Firstly.interactionRouterBoundary hr ad =
          Except.ok (Firstly.RouterOutcome.loggedOnly e)) ∧
    (∃ o, Firstly.messageRouterBoundary hr ad = Except.ok o) ∧
    (∀ (gs : List (String × Firstly.GiveawayRec)) (gwId user e : String),
      (Firstly.giveawayJoinListener gs gwId user (Except.error e)).2 =
        Except.error e) := by
  refine ⟨?_, ?_, ?_, ?_⟩
  · cases hr with
    | ok _ => exact ⟨Firstly.RouterOutcome.completed, rfl⟩
    | error e =>
      cases ad with
      | ok _ => exact ⟨Firstly.RouterOutcome.apologized "An error occurred.", rfl⟩
      | error e2 => exact ⟨Firstly.RouterOutcome.loggedOnly e, rfl⟩
  · intro e he
    subst he
    cases ad with
    | ok _ => exact Or.inl rfl
    | error e2 => exact Or.inr ⟨e2, rfl, rfl⟩
  · cases hr with
    | ok _ => exact ⟨Firstly.RouterOutcome.completed, rfl⟩
    | error e =>
      cases ad with
      | ok _ => exact ⟨Firstly.RouterOutcome.apologized "An error occurred.", rfl⟩
      | error e2 => exact ⟨Firstly.RouterOutcome.loggedOnly e, rfl⟩
  · intro gs gwId user e
    unfold Firstly.giveawayJoinListener
    cases Firstly.lookupGiveaway gs gwId <;> rfl

/-- Witness for C8 (amended): a failing handler with a deliverable apology ends
in the apologized outcome. -/
theorem routerBoundaries_catch_witness :
    Firstly.interactionRouterBoundary (Except.error "boom") (Except.ok ()) =
      Except.ok (Firstly.RouterOutcome.apologized "An error occurred.") ∨
    ∃ e2, (Except.ok () : Except String Unit) = Except.error e2 ∧
      Firstly.interactionRouterBoundary (Except.error "boom") (Except.ok ()) =
        Except.ok (Firstly.RouterOutcome.loggedOnly "boom") :=
  (routerBoundaries_catch (Except.error "boom") (Except.ok ())).2.1 "boom" rfl

/-- Witness for C1: on the board with `X` across the top row, the returned
winner `X` indeed owns a fully occupied line. -/
theorem tttWinner_classifies_witness :
    ∃ l ∈ Firstly.tttLines,
      Firstly.lineFullOf
        [some Firstly.Mark.X, some Firstly.Mark.X, some Firstly.Mark.X,
         none, none, none, none, none, none] l Firstly.Mark.X :=
  (tttWinner_classifies (some Firstly.Mark.X) (some Firstly.Mark.X)
    (some Firstly.Mark.X) none none none none none none).2.1
    Firstly.Mark.X (by decide)
